import Mathlib

/-!
Verification of the DTF halftoner core (src/core/halftone_algorithms.py,
src/core/color_separation.py, src/core/processor.py) against its
natural-language specification.

Conventions of the shallow embedding:
* 8-bit image planes are modelled as a `Plane` structure carrying the numpy
  shape `(h, w)` and a total data function `ℕ → ℕ → ℚ`; only indices
  `i < h, j < w` are meaningful.  uint8 samples are integer-valued rationals.
* float32/float64 arithmetic is modelled exactly in `ℚ`; the only
  transcendental step (scipy's `ndimage.rotate`, which needs `cos`/`sin` of
  the screen angle) is modelled over `ℝ`.
* `.astype(np.uint8)` on a non-negative float is truncation, i.e. `Int.floor`.
-/

set_option autoImplicit false

namespace DTF

/-- An H×W numpy array (one image plane).  `data` is total; entries outside
`i < h, j < w` are irrelevant padding. -/
structure Plane where
  h : ℕ
  w : ℕ
  data : ℕ → ℕ → ℚ

/-- An H×W×C numpy raster (C = 3 for RGB, 4 for RGBA); 8-bit samples. -/
structure Raster where
  h : ℕ
  w : ℕ
  nchan : ℕ
  data : ℕ → ℕ → ℕ → ℚ

/-! ### Bayer threshold matrices (HalftoneAlgorithms.bayer_matrix) -/

/-- The 2×2 base Bayer matrix `[[0, 2], [3, 1]]` (integer, before the final
division). -/
def bayer2 (i j : ℕ) : ℕ :=
  if i % 2 = 0 then (if j % 2 = 0 then 0 else 2)
  else (if j % 2 = 0 then 3 else 1)

/-- The integer Bayer matrix of side `2 ^ (m + 1)`, built by the source's
doubling loop: each doubling step places the previous matrix in the four
quadrants with offsets `(qi * 2 + qj) * n²` where `n` is the previous side
(the source writes the offset as `(i * 2 + j) * (n * n // 4)` with `n` the
new side). -/
def bayerUnscaled : ℕ → ℕ → ℕ → ℕ
  | 0, i, j => bayer2 i j
  | m + 1, i, j =>
      bayerUnscaled m (i % 2 ^ (m + 1)) (j % 2 ^ (m + 1)) +
        (i / 2 ^ (m + 1) * 2 + j / 2 ^ (m + 1)) * (2 ^ (m + 1)) ^ 2

/-- The number of iterations of the loop `while n < size: n *= 2` starting
at `n = 2`: zero for `size ≤ 2`, else one more than for `⌈size / 2⌉`.
(The first argument is fuel making the recursion structural; `size` itself
is always enough fuel.) -/
def bayerDoublings : ℕ → ℕ → ℕ
  | 0, _ => 0
  | fuel + 1, s => if s ≤ 2 then 0 else bayerDoublings fuel ((s + 1) / 2) + 1

/-- Side length of the matrix actually returned by `bayer_matrix size`: the
doubling loop stops at the first power of two `≥ size` (and at 2 for
`size < 2`), which need not equal `size`. -/
def bayerSide (size : ℕ) : ℕ := 2 ^ (bayerDoublings size size + 1)

/-- `HalftoneAlgorithms.bayer_matrix`.  Note the source performs no
validation of `size`: for any `size ≠ 2` it doubles from the 2×2 base until
the side is `≥ size` and divides the integer matrix by `size * size`
(division by the *requested* size squared, not the actual side squared). -/
def bayer_matrix (size : ℕ) : Plane :=
  if size = 2 then
    ⟨2, 2, fun i j => (bayer2 i j : ℚ) / 4⟩
  else
    ⟨bayerSide size, bayerSide size,
      fun i j => (bayerUnscaled (bayerDoublings size size) i j : ℚ) / ((size * size : ℕ) : ℚ)⟩

/-- `s` is a power of two. -/
def isPow2 (s : ℕ) : Prop := ∃ k, s = 2 ^ k

/-! ### Ordered dithering (HalftoneAlgorithms.ordered_dither) -/

/-- The thresholding stage of `ordered_dither`: normalize the plane to
`[0, 1]`, tile the Bayer matrix (`np.tile` + crop `[:h, :w]`, i.e. index
modulo the matrix side) and compare strictly.  Result is the float 0/1
plane the source calls `result`. -/
def threshold01 (p : Plane) (matrixSize : ℕ) : Plane :=
  let tm := bayer_matrix matrixSize
  ⟨p.h, p.w, fun i j => if p.data i j / 255 > tm.data (i % tm.h) (j % tm.w) then 1 else 0⟩

/-- Pixel lookup with the `mode='constant', cval=0` convention of
`scipy.ndimage`: integer coordinates outside the array read as 0. -/
def pixVal (p : Plane) (a b : ℤ) : ℚ :=
  if 0 ≤ a ∧ a < (p.h : ℤ) ∧ 0 ≤ b ∧ b < (p.w : ℤ) then p.data a.toNat b.toNat else 0

/-- Order-1 (bilinear) spline interpolation of `scipy.ndimage` at real
coordinates `(y, x)`, with the legacy `mode='constant'` rule: a coordinate
outside the image extent `[0, dim − 1]` yields `cval = 0` with no
interpolation beyond the edge. -/
noncomputable def bilinearAt (p : Plane) (y x : ℝ) : ℝ :=
  if 0 ≤ y ∧ y ≤ (p.h : ℝ) - 1 ∧ 0 ≤ x ∧ x ≤ (p.w : ℝ) - 1 then
    let y0 : ℤ := ⌊y⌋
    let x0 : ℤ := ⌊x⌋
    let fy : ℝ := y - y0
    let fx : ℝ := x - x0
    (1 - fy) * (1 - fx) * (pixVal p y0 x0 : ℝ) +
      (1 - fy) * fx * (pixVal p y0 (x0 + 1) : ℝ) +
      fy * (1 - fx) * (pixVal p (y0 + 1) x0 : ℝ) +
      fy * fx * (pixVal p (y0 + 1) (x0 + 1) : ℝ)
  else 0

/-- One pixel of `scipy.ndimage.rotate(result, angle, reshape=False,
order=1)`: output pixel `(i, j)` samples the input at
`R · (o − center) + center` with `R = [[cos θ, sin θ], [−sin θ, cos θ]]`
(counter-clockwise rotation about the image center, `θ` in degrees). -/
noncomputable def rotVal (angle : ℚ) (p : Plane) (i j : ℕ) : ℝ :=
  let θ : ℝ := (angle : ℝ) * Real.pi / 180
  let ic : ℝ := ((p.h : ℝ) - 1) / 2
  let jc : ℝ := ((p.w : ℝ) - 1) / 2
  bilinearAt p
    (Real.cos θ * ((i : ℝ) - ic) + Real.sin θ * ((j : ℝ) - jc) + ic)
    (-Real.sin θ * ((i : ℝ) - ic) + Real.cos θ * ((j : ℝ) - jc) + jc)

/-- `HalftoneAlgorithms.ordered_dither(channel, matrix_size=8, angle=45.0)`:
threshold against the tiled Bayer matrix, rotate the already-binary result
when `angle ≠ 0`, then `(result * 255).astype(np.uint8)`. -/
noncomputable def ordered_dither (p : Plane) (matrixSize : ℕ) (angle : ℚ) : Plane :=
  let bin := threshold01 p matrixSize
  if angle = 0 then
    ⟨p.h, p.w, fun i j => ((⌊(255 : ℚ) * bin.data i j⌋ : ℤ) : ℚ)⟩
  else
    ⟨p.h, p.w, fun i j => ((⌊(255 : ℝ) * rotVal angle bin i j⌋ : ℤ) : ℚ)⟩

/-! ### Floyd–Steinberg error diffusion (HalftoneAlgorithms.floyd_steinberg) -/

/-- `output[y, x] = v` on a mutable float buffer. -/
def setAt (f : ℕ → ℕ → ℚ) (y x : ℕ) (v : ℚ) : ℕ → ℕ → ℚ :=
  fun a b => if a = y ∧ b = x then v else f a b

/-- `output[y, x] += v` on a mutable float buffer. -/
def addAt (f : ℕ → ℕ → ℚ) (y x : ℕ) (v : ℚ) : ℕ → ℕ → ℚ :=
  fun a b => if a = y ∧ b = x then f a b + v else f a b

/-- The body of the source's double loop at pixel `(y, x)`: quantize against
the midpoint 127.5 and diffuse the error to the four unvisited neighbours,
skipping neighbours outside the bounds exactly as the source's `if`s do. -/
def fsPixel (h w y x : ℕ) (f : ℕ → ℕ → ℚ) : ℕ → ℕ → ℚ :=
  let oldPixel := f y x
  let newPixel : ℚ := if oldPixel > 255 / 2 then 255 else 0
  let err := oldPixel - newPixel
  let f1 := setAt f y x newPixel
  let f2 := if x + 1 < w then addAt f1 y (x + 1) (err * 7 / 16) else f1
  let f3 := if y + 1 < h then (if 0 < x then addAt f2 (y + 1) (x - 1) (err * 3 / 16) else f2) else f2
  let f4 := if y + 1 < h then addAt f3 (y + 1) x (err * 5 / 16) else f3
  if y + 1 < h then (if x + 1 < w then addAt f4 (y + 1) (x + 1) (err * 1 / 16) else f4) else f4

/-- Row-major scan order `(0,0), (0,1), …` of an `h × w` array. -/
def rowMajor (h w : ℕ) : List (ℕ × ℕ) :=
  (List.range h).flatMap fun y => (List.range w).map fun x => (y, x)

/-- `HalftoneAlgorithms.floyd_steinberg`: sequential row-major error
diffusion, then `np.clip(output, 0, 255).astype(np.uint8)`. -/
def floyd_steinberg (p : Plane) : Plane :=
  let final := (rowMajor p.h p.w).foldl (fun f yx => fsPixel p.h p.w yx.1 yx.2 f) p.data
  ⟨p.h, p.w, fun i j => ((⌊min 255 (max 0 (final i j))⌋ : ℤ) : ℚ)⟩

/-! ### Hybrid halftoning (HalftoneAlgorithms.hybrid_halftone) -/

/-- `midtone_mask` as a Boolean test: not a highlight (`tone < ht`) and not a
shadow (`tone > sh`), tones normalized to `[0, 1]`. -/
def isMidtoneB (p : Plane) (ht sh : ℚ) (i j : ℕ) : Bool :=
  if p.data i j / 255 < ht ∨ sh < p.data i j / 255 then false else true

/-- The in-bounds midtone pixels in row-major order: exactly the order in
which numpy's boolean indexing `channel[midtone_mask]` extracts them. -/
def midtonePixels (p : Plane) (ht sh : ℚ) : List (ℕ × ℕ) :=
  (rowMajor p.h p.w).filter fun q => isMidtoneB p ht sh q.1 q.2

/-- `channel[midtone_mask].reshape(-1, 1)`: the extracted midtone samples as
an M×1 column plane. -/
def midtoneColumn (p : Plane) (ht sh : ℚ) : Plane :=
  let pix := midtonePixels p ht sh
  ⟨pix.length, 1, fun i _ =>
    match pix.get? i with
    | some q => p.data q.1 q.2
    | none => 0⟩

/-- `HalftoneAlgorithms.hybrid_halftone(channel, highlight_threshold=0.2,
shadow_threshold=0.8)`: highlight/shadow pixels take the full-plane
Floyd–Steinberg result; midtone pixels are extracted into an M×1 column,
ordered-dithered with `matrix_size=8` and the *default* `angle=45.0`, and
written back in extraction order (`output[midtone_mask] =
am_result.flatten()`).  The source's `np.any` guards only skip computing
arrays whose values would be unused, so they do not change any in-bounds
pixel.  The masks partition the plane, so the zero initialization of
`output` is never visible in bounds. -/
noncomputable def hybrid_halftone (p : Plane) (ht sh : ℚ) : Plane :=
  let fm := floyd_steinberg p
  let am := ordered_dither (midtoneColumn p ht sh) 8 45
  ⟨p.h, p.w, fun i j =>
    if p.data i j / 255 < ht ∨ sh < p.data i j / 255 then fm.data i j
    else am.data ((midtonePixels p ht sh).indexOf (i, j)) 0⟩

/-- Modelled from the spec (for comparison with the code): "Run
floyd_steinberg over the full plane and keep only the highlight/shadow
pixels from its result; run ordered_dither (fixed matrix size 8, angle 0)
over the full plane and keep only the midtone pixels; union the two kept
subsets to form the output." -/
noncomputable def hybridSpecComposition (p : Plane) (ht sh : ℚ) : Plane :=
  ⟨p.h, p.w, fun i j =>
    if p.data i j / 255 < ht ∨ sh < p.data i j / 255 then (floyd_steinberg p).data i j
    else (ordered_dither p 8 0).data i j⟩

/-! ### Color separation (DTFColorSeparator.rgb_to_cmyk) -/

/-- One CMYK sample (float values, channel order c, m, y, k). -/
structure CMYK where
  c : ℚ
  m : ℚ
  y : ℚ
  k : ℚ
  deriving DecidableEq

/-- The `1e-10` epsilon guarding the GCR renormalization divide. -/
def eps : ℚ := 1 / 10000000000

/-- The per-pixel CMYK values of `rgb_to_cmyk` at the point just before the
total-ink-limit step: normalize to `[0, 1]`, `c = 1 − r`, `m = 1 − g`,
`y = 1 − b`, then apply the black-generation strategy.  `"GCR"` scales the
minimum by 0.8, clips it to `[0, 1]` and renormalizes CMY; any other
`black_generation` string takes the UCR branch (`k = min`, plain
subtraction). -/
def cmykPre (bg : String) (r g b : ℚ) : CMYK :=
  let c := 1 - r / 255
  let m := 1 - g / 255
  let y := 1 - b / 255
  if bg = "GCR" then
    let k0 := min (min c m) y * (4 / 5)
    let k := min 1 (max 0 k0)
    ⟨(c - k) / (1 - k + eps), (m - k) / (1 - k + eps), (y - k) / (1 - k + eps), k⟩
  else
    let k := min (min c m) y
    ⟨c - k, m - k, y - k, k⟩

/-- Combined ink coverage of one pixel (fractional, i.e. percent / 100). -/
def inkSum (x : CMYK) : ℚ := x.c + x.m + x.y + x.k

/-- The total-ink-limit step of `rgb_to_cmyk` on one pixel: where the sum
exceeds `total_ink_limit / 100`, scale all four channels by
`(limit / 100) / total`; other pixels are untouched. -/
def inkLimitPixel (L : ℚ) (x : CMYK) : CMYK :=
  if inkSum x > L / 100 then
    let scale := (L / 100) / inkSum x
    ⟨x.c * scale, x.m * scale, x.y * scale, x.k * scale⟩
  else x

/-- `np.clip(v, 0, 1)`. -/
def clip01 (v : ℚ) : ℚ := min 1 (max 0 v)

/-- `(np.clip(v, 0, 1) * 255).astype(np.uint8)` for one sample. -/
def quant8 (v : ℚ) : ℚ := ((⌊clip01 v * 255⌋ : ℤ) : ℚ)

/-- The post-limit CMYK values of `rgb_to_cmyk` at raster pixel `(i, j)`. -/
def cmykAt (bg : String) (L : ℚ) (r : Raster) (i j : ℕ) : CMYK :=
  inkLimitPixel L (cmykPre bg (r.data i j 0) (r.data i j 1) (r.data i j 2))

/-- `DTFColorSeparator.rgb_to_cmyk`: returns the four quantized CMYK planes
(`np.clip(cmyk, 0, 1) * 255` as uint8) and the separate black channel
`(k * 255).astype(np.uint8)` (no clip on the latter). -/
def rgb_to_cmyk (bg : String) (L : ℚ) (r : Raster) : (Plane × Plane × Plane × Plane) × Plane :=
  ((⟨r.h, r.w, fun i j => quant8 (cmykAt bg L r i j).c⟩,
    ⟨r.h, r.w, fun i j => quant8 (cmykAt bg L r i j).m⟩,
    ⟨r.h, r.w, fun i j => quant8 (cmykAt bg L r i j).y⟩,
    ⟨r.h, r.w, fun i j => quant8 (cmykAt bg L r i j).k⟩),
   ⟨r.h, r.w, fun i j => ((⌊(cmykAt bg L r i j).k * 255⌋ : ℤ) : ℚ)⟩)

/-! ### White layer (DTFColorSeparator.generate_white_layer) -/

/-- `np.mean(rgb, axis=2)` at pixel `(i, j)` (averages all channels,
including alpha when present). -/
def grayMean (r : Raster) (i j : ℕ) : ℚ :=
  (∑ c ∈ Finset.range r.nchan, r.data i j c) / (r.nchan : ℚ)

/-- `DTFColorSeparator.generate_white_layer`.  The `edge_enhanced` branch's
cv2 chain (`cvtColor` → `Canny(50, 150)` → 3×3 `dilate`) is external
library code abstracted as the parameter `edge`, which returns a same-shape
edge-magnitude array.  In the `halftone` branch the source also computes
`white_needed = (gray < 220)` but never uses it. -/
def generate_white_layer (edge : Raster → ℕ → ℕ → ℚ) (method : String) (r : Raster) : Plane :=
  if method = "full" then
    ⟨r.h, r.w, fun i j => if grayMean r i j < 250 then 255 else 0⟩
  else if method = "halftone" then
    ⟨r.h, r.w, fun i j => if clip01 (1 - grayMean r i j / 255) > 3 / 10 then 255 else 0⟩
  else if method = "edge_enhanced" then
    ⟨r.h, r.w, fun i j => if grayMean r i j < 220 ∨ 0 < edge r i j then 255 else 0⟩
  else if method = "transparency_based" then
    if r.nchan = 4 then
      ⟨r.h, r.w, fun i j => if r.data i j 3 < 250 then 255 else 0⟩
    else
      ⟨r.h, r.w, fun _ _ => 255⟩
  else
    ⟨r.h, r.w, fun _ _ => 255⟩

/-! ### Dot-gain compensation (DTFColorSeparator.apply_dot_gain_compensation) -/

/-- Entry `n` of the 256-entry compensation LUT: `x = n / 255` (the
`np.linspace(0, 1, 256)` sample), `y = 1 − (1 − x) ** (1 / (1 + dot_gain))`,
`(y * 255).astype(np.uint8)`. -/
noncomputable def dotGainLut (dotGain : ℚ) (n : ℕ) : ℤ :=
  ⌊(1 - (1 - (n : ℝ) / 255) ^ ((1 : ℝ) / (1 + (dotGain : ℝ)))) * 255⌋

/-- `DTFColorSeparator.apply_dot_gain_compensation`: map every (uint8)
sample through the LUT. -/
noncomputable def apply_dot_gain_compensation (dotGain : ℚ) (p : Plane) : Plane :=
  ⟨p.h, p.w, fun i j => ((dotGainLut dotGain ⌊p.data i j⌋.toNat : ℤ) : ℚ)⟩

/-! ### Pipeline (DTFProcessor.process) -/

/-- The five named output channels of a run. -/
inductive Colorant
  | cyan
  | magenta
  | yellow
  | black
  | white
  deriving DecidableEq

/-- The human-readable progress messages `process` reports, one constructor
per distinct message text. -/
inductive ProgressMsg
  | separating
  | whiteLayer
  | dotGain
  | halftoning (c : Colorant)
  | complete
  deriving DecidableEq

/-- The configuration fields `DTFConfig` provides that `process` and its
callees read (dpi, lpi and the output fields are consumed only by
collaborators).  `angles` models `config.angles.get(name, 0.0)` as a total
map. -/
structure Config where
  angles : Colorant → ℚ
  method : String
  matrix_size : ℕ
  white_method : String
  black_generation : String
  total_ink_limit : ℚ
  dot_gain : ℚ

/-- The processor's ambient mutable state: the results cache and the
`is_processing` flag. -/
structure ProcState where
  results : Option (Colorant → Plane)
  is_processing : Bool

/-- Steps 1–3 of `process`: color separation, white layer, then dot-gain
compensation on every channel except white (`channels` dict). -/
noncomputable def channelsAfterDotGain (cfg : Config) (edge : Raster → ℕ → ℕ → ℚ)
    (r : Raster) : Colorant → Plane :=
  let sep := rgb_to_cmyk cfg.black_generation cfg.total_ink_limit r
  let whiteLayer := generate_white_layer edge cfg.white_method r
  fun c => match c with
  | .cyan => apply_dot_gain_compensation cfg.dot_gain sep.1.1
  | .magenta => apply_dot_gain_compensation cfg.dot_gain sep.1.2.1
  | .yellow => apply_dot_gain_compensation cfg.dot_gain sep.1.2.2.1
  | .black => apply_dot_gain_compensation cfg.dot_gain sep.2
  | .white => whiteLayer

/-- The method dispatch of steps 4–8 for one channel: the three recognized
method strings, and the documented fallback `ordered_dither(channels[name])`
which passes *no* `matrix_size`/`angle` arguments, so the function defaults
`matrix_size=8, angle=45.0` apply. -/
noncomputable def halftoneChannel (cfg : Config) (name : Colorant) (p : Plane) : Plane :=
  let angle := cfg.angles name
  if cfg.method = "ordered" then ordered_dither p cfg.matrix_size angle
  else if cfg.method = "error_diffusion" then floyd_steinberg p
  else if cfg.method = "hybrid" then hybrid_halftone p (1 / 5) (4 / 5)
  else ordered_dither p 8 45

/-- The complete `halftoned` dictionary a successful run computes. -/
noncomputable def pipelineChannels (cfg : Config) (edge : Raster → ℕ → ℕ → ℚ)
    (r : Raster) : Colorant → Plane :=
  fun name => halftoneChannel cfg name (channelsAfterDotGain cfg edge r name)

/-- `DTFProcessor.process`.  The progress callback is the only effectful
collaborator, so it is the model's fault injector: `cb step msg = some e`
means the callback raised exception `e` at that report.  The source's pure
numeric work cannot raise on well-typed input and is grouped after the
report that precedes it; the channel loop (steps 4–8, fixed order cyan,
magenta, yellow, black, white, with `step_num` reaching 8 already for the
white channel) is unrolled.  `try/except/finally` semantics: on any raise
nothing later executes, `results` keeps whatever was last assigned, and the
`finally` clears `is_processing` before the exception propagates; on the
success path `self.results = halftoned` happens *before* the final
`(8, "Processing complete!")` report. -/
noncomputable def process {E : Type} (cfg : Config) (edge : Raster → ℕ → ℕ → ℚ)
    (raster : Raster) (cb : ℕ → ProgressMsg → Option E) (st : ProcState) :
    Except E (Colorant → Plane) × ProcState :=
  match cb 1 .separating with
  | some e => (.error e, ⟨st.results, false⟩)
  | none =>
  match cb 2 .whiteLayer with
  | some e => (.error e, ⟨st.results, false⟩)
  | none =>
  match cb 3 .dotGain with
  | some e => (.error e, ⟨st.results, false⟩)
  | none =>
  match cb 4 (.halftoning .cyan) with
  | some e => (.error e, ⟨st.results, false⟩)
  | none =>
  match cb 5 (.halftoning .magenta) with
  | some e => (.error e, ⟨st.results, false⟩)
  | none =>
  match cb 6 (.halftoning .yellow) with
  | some e => (.error e, ⟨st.results, false⟩)
  | none =>
  match cb 7 (.halftoning .black) with
  | some e => (.error e, ⟨st.results, false⟩)
  | none =>
  match cb 8 (.halftoning .white) with
  | some e => (.error e, ⟨st.results, false⟩)
  | none =>
    let halftoned := pipelineChannels cfg edge raster
    match cb 8 .complete with
    | some e => (.error e, ⟨some halftoned, false⟩)
    | none => (.ok halftoned, ⟨some halftoned, false⟩)

/-! ### Derived quantities used by the statements -/

/-- Combined coverage of one output pixel of the quantized CMYK planes, in
percent. -/
def quantSumPercent (x : CMYK) : ℚ :=
  (quant8 x.c + quant8 x.m + quant8 x.y + quant8 x.k) * 100 / 255

/-! ### Concrete instances used by witnesses and counterexamples -/

/-- A trivial abstraction of the cv2 edge chain: no edges anywhere. -/
def edge0 : Raster → ℕ → ℕ → ℚ := fun _ _ _ => 0

/-- A 1×1 black RGB raster. -/
def raster1 : Raster := ⟨1, 1, 3, fun _ _ _ => 0⟩

/-- A default-like configuration (all screen angles 0, ordered dithering). -/
def cfgBase : Config := ⟨fun _ => 0, "ordered", 8, "full", "UCR", 280, 0⟩

/-- A configuration with the non-power-of-two matrix size 3. -/
def cfgSize3 : Config := ⟨fun _ => 0, "ordered", 3, "full", "UCR", 280, 0⟩

/-- A configuration whose method string is not one of the recognized
names. -/
def cfgUnknown : Config := ⟨fun _ => 0, "unknown_method", 2, "full", "UCR", 280, 0⟩

/-- Another unrecognized-method configuration, with matrix size 2 and all
angles 0, whose configured parameters the fallback demonstrably ignores. -/
def cfgAdaptive : Config := ⟨fun _ => 0, "adaptive", 2, "full", "UCR", 280, 0⟩

/-- A progress callback that raises exactly at the final
`(8, "Processing complete!")` report. -/
def cbComplete : ℕ → ProgressMsg → Option Unit := fun _ m =>
  match m with
  | .complete => some ()
  | _ => none

/-- 3×3 plane, single bright sample at `(0, 2)`. -/
def plane3x3 : Plane := ⟨3, 3, fun i j => if i = 0 ∧ j = 2 then 255 else 0⟩

/-- 1×2 plane `[[255, 0]]`. -/
def plane12 : Plane := ⟨1, 2, fun i j => if i = 0 ∧ j = 0 then 255 else 0⟩

/-- 5×2 plane whose only midtone sample (value 128) sits at `(4, 1)`, where
the full-plane Bayer threshold `b8[4][1] = 34/64` exceeds `128/255`. -/
def plane52 : Plane := ⟨5, 2, fun i j => if i = 4 ∧ j = 1 then 128 else 0⟩

/-! ### Helper lemmas -/

theorem ordered_dither_angle_zero (p : Plane) (N : ℕ) :
    ordered_dither p N 0 =
      ⟨p.h, p.w, fun i j => ((⌊(255 : ℚ) * (threshold01 p N).data i j⌋ : ℤ) : ℚ)⟩ := by
  simp [ordered_dither]

/-- Exhaustive shape analysis of one `process` call: either some report
before the result store raised (state untouched except the cleared flag),
or the final completion report raised (the complete result is already
stored), or the run succeeded. -/
theorem process_shape {E : Type} (cfg : Config) (edge : Raster → ℕ → ℕ → ℚ)
    (raster : Raster) (cb : ℕ → ProgressMsg → Option E) (st : ProcState) :
    (∃ e, process cfg edge raster cb st = (.error e, ⟨st.results, false⟩)) ∨
    (∃ e, cb 8 ProgressMsg.complete = some e ∧
      process cfg edge raster cb st =
        (.error e, ⟨some (pipelineChannels cfg edge raster), false⟩)) ∨
    (cb 8 ProgressMsg.complete = none ∧
      process cfg edge raster cb st =
        (.ok (pipelineChannels cfg edge raster),
          ⟨some (pipelineChannels cfg edge raster), false⟩)) := by
  unfold process
  rcases h1 : cb 1 ProgressMsg.separating with _ | e1
  case some => exact Or.inl ⟨e1, rfl⟩
  rcases h2 : cb 2 ProgressMsg.whiteLayer with _ | e2
  case some => exact Or.inl ⟨e2, rfl⟩
  rcases h3 : cb 3 ProgressMsg.dotGain with _ | e3
  case some => exact Or.inl ⟨e3, rfl⟩
  rcases h4 : cb 4 (ProgressMsg.halftoning .cyan) with _ | e4
  case some => exact Or.inl ⟨e4, rfl⟩
  rcases h5 : cb 5 (ProgressMsg.halftoning .magenta) with _ | e5
  case some => exact Or.inl ⟨e5, rfl⟩
  rcases h6 : cb 6 (ProgressMsg.halftoning .yellow) with _ | e6
  case some => exact Or.inl ⟨e6, rfl⟩
  rcases h7 : cb 7 (ProgressMsg.halftoning .black) with _ | e7
  case some => exact Or.inl ⟨e7, rfl⟩
  rcases h8 : cb 8 (ProgressMsg.halftoning .white) with _ | e8
  case some => exact Or.inl ⟨e8, rfl⟩
  rcases h9 : cb 8 ProgressMsg.complete with _ | e9
  case some => exact Or.inr (Or.inl ⟨e9, rfl, rfl⟩)
  exact Or.inr (Or.inr ⟨rfl, rfl⟩)

theorem ordered_dither_h (p : Plane) (N : ℕ) (a : ℚ) : (ordered_dither p N a).h = p.h := by
  unfold ordered_dither
  split <;> rfl

theorem ordered_dither_w (p : Plane) (N : ℕ) (a : ℚ) : (ordered_dither p N a).w = p.w := by
  unfold ordered_dither
  split <;> rfl

theorem generate_white_layer_h (edge : Raster → ℕ → ℕ → ℚ) (m : String) (r : Raster) :
    (generate_white_layer edge m r).h = r.h := by
  unfold generate_white_layer
  split_ifs <;> rfl

theorem generate_white_layer_w (edge : Raster → ℕ → ℕ → ℚ) (m : String) (r : Raster) :
    (generate_white_layer edge m r).w = r.w := by
  unfold generate_white_layer
  split_ifs <;> rfl

theorem halftoneChannel_h (cfg : Config) (n : Colorant) (p : Plane) :
    (halftoneChannel cfg n p).h = p.h := by
  unfold halftoneChannel
  split_ifs <;> first | rfl | apply ordered_dither_h

theorem halftoneChannel_w (cfg : Config) (n : Colorant) (p : Plane) :
    (halftoneChannel cfg n p).w = p.w := by
  unfold halftoneChannel
  split_ifs <;> first | rfl | apply ordered_dither_w

theorem channelsAfterDotGain_h (cfg : Config) (edge : Raster → ℕ → ℕ → ℚ) (r : Raster)
    (n : Colorant) : (channelsAfterDotGain cfg edge r n).h = r.h := by
  cases n <;> first | rfl | apply generate_white_layer_h

theorem channelsAfterDotGain_w (cfg : Config) (edge : Raster → ℕ → ℕ → ℚ) (r : Raster)
    (n : Colorant) : (channelsAfterDotGain cfg edge r n).w = r.w := by
  cases n <;> first | rfl | apply generate_white_layer_w

theorem pixVal_in (p : Plane) (a b : ℤ) (h0 : 0 ≤ a) (h1 : a < (p.h : ℤ))
    (h2 : 0 ≤ b) (h3 : b < (p.w : ℤ)) : pixVal p a b = p.data a.toNat b.toNat := by
  unfold pixVal
  rw [if_pos ⟨h0, h1, h2, h3⟩]

theorem bayer8_data (a b : ℕ) :
    (bayer_matrix 8).data a b = (bayerUnscaled 2 a b : ℚ) / 64 := by
  unfold bayer_matrix
  rw [if_neg (by norm_num : (8 : ℕ) ≠ 2)]
  show ((bayerUnscaled (bayerDoublings 8 8) a b : ℕ) : ℚ) / ((8 * 8 : ℕ) : ℚ) = _
  norm_num [show bayerDoublings 8 8 = 2 from rfl]

/-- A sampling coordinate left of the image extent reads `cval = 0`. -/
theorem bilinearAt_oob_left (p : Plane) (y x : ℝ) (hy : y < 0) : bilinearAt p y x = 0 := by
  unfold bilinearAt
  rw [if_neg]
  rintro ⟨h0, -⟩
  exact absurd h0 (not_le.mpr hy)

/-- Basic facts about `√2` used by the rotation computations. -/
theorem sqrt2_facts : 0 < Real.sqrt 2 ∧ Real.sqrt 2 < 2 ∧ 1 < Real.sqrt 2 ∧
    Real.sqrt 2 * Real.sqrt 2 = 2 := by
  have hsq : Real.sqrt 2 * Real.sqrt 2 = 2 := Real.mul_self_sqrt (by norm_num)
  have hnn : 0 ≤ Real.sqrt 2 := Real.sqrt_nonneg 2
  refine ⟨by nlinarith, by nlinarith, by nlinarith, hsq⟩

/-- The 45° screen angle in radians. -/
theorem theta45 : ((45 : ℚ) : ℝ) * Real.pi / 180 = Real.pi / 4 := by
  push_cast
  ring

/-- Rotation of a 1×1 plane is the identity: the sole output pixel samples
the image center exactly, whatever the angle. -/
theorem rotVal_one_one (angle : ℚ) (p : Plane) (hh : p.h = 1) (hw : p.w = 1) :
    rotVal angle p 0 0 = ((p.data 0 0 : ℚ) : ℝ) := by
  unfold rotVal bilinearAt pixVal
  rw [hh, hw]
  norm_num

theorem quant8_le_mul (v : ℚ) (hv : 0 ≤ v) : quant8 v ≤ 255 * v := by
  have h1 : clip01 v ≤ v := (min_le_right _ _).trans (le_of_eq (max_eq_right hv))
  have h2 : (↑⌊clip01 v * 255⌋ : ℚ) ≤ clip01 v * 255 := Int.floor_le _
  calc quant8 v ≤ clip01 v * 255 := h2
    _ ≤ v * 255 := by nlinarith
    _ = 255 * v := by ring

/-- Bounds on the pre-limit CMYK values: all four channels lie in `[0, 1]`
for 8-bit input, under either black-generation branch. -/
theorem cmykPre_bounds (bg : String) (r g b : ℚ)
    (hr0 : 0 ≤ r) (hr1 : r ≤ 255) (hg0 : 0 ≤ g) (hg1 : g ≤ 255)
    (hb0 : 0 ≤ b) (hb1 : b ≤ 255) :
    (0 ≤ (cmykPre bg r g b).c ∧ (cmykPre bg r g b).c ≤ 1) ∧
    (0 ≤ (cmykPre bg r g b).m ∧ (cmykPre bg r g b).m ≤ 1) ∧
    (0 ≤ (cmykPre bg r g b).y ∧ (cmykPre bg r g b).y ≤ 1) ∧
    (0 ≤ (cmykPre bg r g b).k ∧ (cmykPre bg r g b).k ≤ 1) := by
  have hc0 : 0 ≤ 1 - r / 255 := by linarith
  have hc1 : 1 - r / 255 ≤ 1 := by linarith
  have hm0 : 0 ≤ 1 - g / 255 := by linarith
  have hm1 : 1 - g / 255 ≤ 1 := by linarith
  have hy0 : 0 ≤ 1 - b / 255 := by linarith
  have hy1 : 1 - b / 255 ≤ 1 := by linarith
  have hmn0 : 0 ≤ min (min (1 - r / 255) (1 - g / 255)) (1 - b / 255) :=
    le_min (le_min hc0 hm0) hy0
  have hmnc : min (min (1 - r / 255) (1 - g / 255)) (1 - b / 255) ≤ 1 - r / 255 :=
    (min_le_left _ _).trans (min_le_left _ _)
  have hmnm : min (min (1 - r / 255) (1 - g / 255)) (1 - b / 255) ≤ 1 - g / 255 :=
    (min_le_left _ _).trans (min_le_right _ _)
  have hmny : min (min (1 - r / 255) (1 - g / 255)) (1 - b / 255) ≤ 1 - b / 255 :=
    min_le_right _ _
  unfold cmykPre
  split_ifs
  · -- GCR branch
    set mn := min (min (1 - r / 255) (1 - g / 255)) (1 - b / 255) with hmn
    have hmax : max 0 (mn * (4 / 5)) = mn * (4 / 5) := max_eq_right (by nlinarith)
    set k := min 1 (max 0 (mn * (4 / 5))) with hk
    have hk0 : 0 ≤ k := le_min (by norm_num) (le_max_left _ _)
    have hk1 : k ≤ 1 := min_le_left _ _
    have hkmn : k ≤ mn := by
      rw [hk, hmax]
      exact (min_le_right _ _).trans (by nlinarith)
    have hden : 0 < 1 - k + eps := by
      have : (0 : ℚ) < eps := by norm_num [eps]
      linarith
    have hnum : ∀ t : ℚ, k ≤ t → t ≤ 1 → 0 ≤ (t - k) / (1 - k + eps) ∧ (t - k) / (1 - k + eps) ≤ 1 := by
      intro t htk ht1
      constructor
      · exact div_nonneg (by linarith) hden.le
      · rw [div_le_one hden]
        have heps : (0 : ℚ) ≤ eps := by norm_num [eps]
        linarith
    exact ⟨hnum _ (hkmn.trans hmnc) hc1, hnum _ (hkmn.trans hmnm) hm1,
      hnum _ (hkmn.trans hmny) hy1, hk0, hk1⟩
  · -- UCR branch
    exact ⟨⟨by linarith, by linarith⟩, ⟨by linarith, by linarith⟩,
      ⟨by linarith, by linarith⟩, hmn0, hmnc.trans hc1⟩

theorem isPow2_two_pow (t : ℕ) : isPow2 (2 ^ t) := ⟨t, rfl⟩

theorem not_isPow2_three : ¬ isPow2 3 := by
  rintro ⟨k, hk⟩
  rcases k with _ | _ | k
  · simp at hk
  · simp at hk
  · have h4 : 4 ≤ 2 ^ (k + 2) := by
      calc 4 = 2 ^ 2 := by norm_num
        _ ≤ 2 ^ (k + 2) := Nat.pow_le_pow_right (by norm_num) (by omega)
    omega

/-- With `dot_gain = 0` the exponent is 1, so every LUT entry is exactly its
index. -/
theorem dotGainLut_zero (n : ℕ) : dotGainLut 0 n = n := by
  unfold dotGainLut
  have he : (1 : ℝ) / (1 + ((0 : ℚ) : ℝ)) = 1 := by norm_num
  rw [he, Real.rpow_one]
  have hval : (1 - (1 - (n : ℝ) / 255)) * 255 = (n : ℝ) := by
    field_simp
  rw [hval, Int.floor_natCast]

/-- The LUT is monotone in its index for non-negative dot gain. -/
theorem dotGainLut_mono (g : ℚ) (hg : 0 ≤ g) (i j : ℕ) (hij : i ≤ j) (hj : j ≤ 255) :
    dotGainLut g i ≤ dotGainLut g j := by
  unfold dotGainLut
  apply Int.floor_le_floor
  have hgR : (0 : ℝ) ≤ ((g : ℚ) : ℝ) := by exact_mod_cast hg
  have he : (0 : ℝ) ≤ 1 / (1 + ((g : ℚ) : ℝ)) := by positivity
  have hbase0 : (0 : ℝ) ≤ 1 - (j : ℝ) / 255 := by
    have : (j : ℝ) ≤ 255 := by exact_mod_cast hj
    linarith
  have hbase : 1 - (j : ℝ) / 255 ≤ 1 - (i : ℝ) / 255 := by
    have : (i : ℝ) ≤ (j : ℝ) := by exact_mod_cast hij
    linarith
  have hr := Real.rpow_le_rpow hbase0 hbase he
  nlinarith

/-! ### Claim theorems -/

/-- C6 (counterexample): the claim says that with UCR black generation the
values just before ink-limit scaling satisfy `c = 1 − r`.  At the black
pixel `r = g = b = 0` the pre-limit cyan is `0` (the UCR subtraction
`c ← c − k` has already removed `k = 1`), while `1 − r = 1`: off by a full
unit, beyond any rounding tolerance. -/
theorem C6_counterexample :
    (cmykPre "UCR" 0 0 0).c = 0 ∧ (1 : ℚ) - 0 / 255 = 1 ∧
    (cmykPre "UCR" 0 0 0).c ≠ 1 - 0 / 255 := by
  have h : (cmykPre "UCR" 0 0 0).c = 0 := by
    unfold cmykPre
    rw [if_neg (by decide : ¬ ("UCR" : String) = "GCR")]
    norm_num
  refine ⟨h, by norm_num, ?_⟩
  rw [h]
  norm_num

/-- C6 (amended): with UCR black generation (`black_generation ≠ "GCR"`),
the values just before ink-limit scaling satisfy `c + k = 1 − r`,
`m + k = 1 − g`, `y + k = 1 − b` exactly, with
`k = min(1 − r, 1 − g, 1 − b)`; the plain identities `c = 1 − r` etc. hold
only before the under-color-removal subtraction. -/
theorem C6_ucr_pre_limit_identities (bg : String) (r g b : ℚ) (hbg : bg ≠ "GCR") :
    (cmykPre bg r g b).k = min (min (1 - r / 255) (1 - g / 255)) (1 - b / 255) ∧
    (cmykPre bg r g b).c + (cmykPre bg r g b).k = 1 - r / 255 ∧
    (cmykPre bg r g b).m + (cmykPre bg r g b).k = 1 - g / 255 ∧
    (cmykPre bg r g b).y + (cmykPre bg r g b).k = 1 - b / 255 := by
  have h : cmykPre bg r g b =
      ⟨(1 - r / 255) - min (min (1 - r / 255) (1 - g / 255)) (1 - b / 255),
       (1 - g / 255) - min (min (1 - r / 255) (1 - g / 255)) (1 - b / 255),
       (1 - b / 255) - min (min (1 - r / 255) (1 - g / 255)) (1 - b / 255),
       min (min (1 - r / 255) (1 - g / 255)) (1 - b / 255)⟩ := by
    unfold cmykPre
    rw [if_neg hbg]
  rw [h]
  refine ⟨rfl, ?_, ?_, ?_⟩ <;> dsimp only <;> ring

theorem C6_witness :
    ("UCR" : String) ≠ "GCR" ∧
    (cmykPre "UCR" 10 20 30).c + (cmykPre "UCR" 10 20 30).k = 1 - 10 / 255 :=
  ⟨by decide, (C6_ucr_pre_limit_identities "UCR" 10 20 30 (by decide)).2.1⟩

/-- C3: the total-ink-limit step of `rgb_to_cmyk`.  Pixels whose pre-limit
coverage is within `total_ink_limit / 100` are untouched; pixels above it
have all four channels scaled by the common factor
`(limit / 100) / total`, making the (real-valued) sum exactly the limit;
and every quantized output pixel's combined coverage in percent is at most
`total_ink_limit` (the claim's rounding tolerance is not even needed,
because truncation to uint8 only decreases coverage). -/
theorem C3_ink_limit (bg : String) (L r g b : ℚ)
    (hL : 0 ≤ L) (hr0 : 0 ≤ r) (hr1 : r ≤ 255) (hg0 : 0 ≤ g) (hg1 : g ≤ 255)
    (hb0 : 0 ≤ b) (hb1 : b ≤ 255) :
    (inkSum (cmykPre bg r g b) ≤ L / 100 →
      inkLimitPixel L (cmykPre bg r g b) = cmykPre bg r g b) ∧
    (L / 100 < inkSum (cmykPre bg r g b) →
      inkLimitPixel L (cmykPre bg r g b) =
        ⟨(cmykPre bg r g b).c * ((L / 100) / inkSum (cmykPre bg r g b)),
         (cmykPre bg r g b).m * ((L / 100) / inkSum (cmykPre bg r g b)),
         (cmykPre bg r g b).y * ((L / 100) / inkSum (cmykPre bg r g b)),
         (cmykPre bg r g b).k * ((L / 100) / inkSum (cmykPre bg r g b))⟩ ∧
      inkSum (inkLimitPixel L (cmykPre bg r g b)) = L / 100) ∧
    quantSumPercent (inkLimitPixel L (cmykPre bg r g b)) ≤ L := by
  obtain ⟨⟨hc0, hc1⟩, ⟨hm0, hm1⟩, ⟨hy0, hy1⟩, ⟨hk0, hk1⟩⟩ :=
    cmykPre_bounds bg r g b hr0 hr1 hg0 hg1 hb0 hb1
  set x := cmykPre bg r g b with hx
  have huntouched : inkSum x ≤ L / 100 → inkLimitPixel L x = x := by
    intro h
    unfold inkLimitPixel
    rw [if_neg (not_lt.mpr h)]
  have hscaled : L / 100 < inkSum x → inkLimitPixel L x =
      ⟨x.c * ((L / 100) / inkSum x), x.m * ((L / 100) / inkSum x),
       x.y * ((L / 100) / inkSum x), x.k * ((L / 100) / inkSum x)⟩ := by
    intro h
    unfold inkLimitPixel
    rw [if_pos h]
  have hL100 : (0 : ℚ) ≤ L / 100 := div_nonneg hL (by norm_num)
  have heq : L / 100 < inkSum x → inkSum (inkLimitPixel L x) = L / 100 := by
    intro h
    have ht : 0 < inkSum x := lt_of_le_of_lt hL100 h
    rw [hscaled h]
    show x.c * ((L / 100) / inkSum x) + x.m * ((L / 100) / inkSum x) +
        x.y * ((L / 100) / inkSum x) + x.k * ((L / 100) / inkSum x) = L / 100
    have h1 : x.c * ((L / 100) / inkSum x) + x.m * ((L / 100) / inkSum x) +
        x.y * ((L / 100) / inkSum x) + x.k * ((L / 100) / inkSum x) =
        (L / 100) / inkSum x * (x.c + x.m + x.y + x.k) := by ring
    rw [h1, show x.c + x.m + x.y + x.k = inkSum x from rfl,
      div_mul_cancel₀ _ (ne_of_gt ht)]
  refine ⟨huntouched, fun h => ⟨hscaled h, heq h⟩, ?_⟩
  -- the quantized-coverage bound, by cases on whether the pixel was scaled
  have hsum : inkSum (inkLimitPixel L x) ≤ L / 100 ∧
      0 ≤ (inkLimitPixel L x).c ∧ 0 ≤ (inkLimitPixel L x).m ∧
      0 ≤ (inkLimitPixel L x).y ∧ 0 ≤ (inkLimitPixel L x).k := by
    rcases le_or_lt (inkSum x) (L / 100) with h | h
    · rw [huntouched h]
      exact ⟨h, hc0, hm0, hy0, hk0⟩
    · have ht : 0 < inkSum x := lt_of_le_of_lt hL100 h
      have hs0 : 0 ≤ (L / 100) / inkSum x := div_nonneg hL100 ht.le
      refine ⟨le_of_eq (heq h), ?_⟩
      rw [hscaled h]
      exact ⟨mul_nonneg hc0 hs0, mul_nonneg hm0 hs0, mul_nonneg hy0 hs0,
        mul_nonneg hk0 hs0⟩
  obtain ⟨hle, hpc, hpm, hpy, hpk⟩ := hsum
  unfold quantSumPercent
  have qc := quant8_le_mul _ hpc
  have qm := quant8_le_mul _ hpm
  have qy := quant8_le_mul _ hpy
  have qk := quant8_le_mul _ hpk
  have hink : (inkLimitPixel L x).c + (inkLimitPixel L x).m +
      (inkLimitPixel L x).y + (inkLimitPixel L x).k ≤ L / 100 := hle
  rw [div_le_iff₀ (by norm_num : (0:ℚ) < 255)]
  nlinarith

theorem C3_witness :
    (0 : ℚ) ≤ 200 ∧ quantSumPercent (inkLimitPixel 200 (cmykPre "UCR" 0 0 0)) ≤ 200 :=
  ⟨by norm_num,
    (C3_ink_limit "UCR" 200 0 0 0 (by norm_num) (by norm_num) (by norm_num)
      (by norm_num) (by norm_num) (by norm_num) (by norm_num)).2.2⟩

/-- C7: the 256-entry dot-gain LUT is monotonically non-decreasing in its
index for any `dot_gain ≥ 0`, and for `dot_gain = 0` it is the identity
(exactly, hence within the claimed ±1 rounding unit), so
`apply_dot_gain_compensation` with zero gain leaves every 8-bit sample
unchanged. -/
theorem C7_dot_gain_lut (g : ℚ) (hg : 0 ≤ g) :
    (∀ i j : ℕ, i ≤ j → j ≤ 255 → dotGainLut g i ≤ dotGainLut g j) ∧
    (∀ n : ℕ, n ≤ 255 → dotGainLut 0 n = n) ∧
    (∀ (p : Plane) (i j n : ℕ), n ≤ 255 → p.data i j = (n : ℚ) →
      (apply_dot_gain_compensation 0 p).data i j = p.data i j) := by
  refine ⟨fun i j hij hj => dotGainLut_mono g hg i j hij hj,
    fun n _ => dotGainLut_zero n, fun p i j n _ hdata => ?_⟩
  simp only [apply_dot_gain_compensation]
  rw [hdata, Int.floor_natCast, Int.toNat_natCast, dotGainLut_zero]
  norm_cast

theorem C7_witness :
    (0 : ℚ) ≤ 0 ∧ dotGainLut 0 3 ≤ dotGainLut 0 5 :=
  ⟨le_rfl, (C7_dot_gain_lut 0 le_rfl).1 3 5 (by norm_num) (by norm_num)⟩

/-- C2 (counterexample): `bayer_matrix` does not reject the
non-power-of-two size 3.  It returns, without any error, a 4×4 matrix
(the doubling loop overshoots to the next power of two) divided by
`3² = 9`, whose entry at `(3, 2)` is `15/9 > 1` — not even a valid
threshold.  A full pipeline run configured with `matrix_size = 3` likewise
completes normally. -/
theorem C2_counterexample :
    (bayer_matrix 3).h = 4 ∧ (bayer_matrix 3).data 3 2 = 15 / 9 ∧
    ¬ (bayer_matrix 3).data 3 2 < 1 ∧
    (process cfgSize3 edge0 raster1 (fun _ _ => (none : Option Unit)) ⟨none, false⟩).1 =
      .ok (pipelineChannels cfgSize3 edge0 raster1) := by
  have h3 : (3 : ℕ) ≠ 2 := by norm_num
  have h : (bayer_matrix 3).data 3 2 = 15 / 9 := by
    unfold bayer_matrix
    rw [if_neg h3]
    show ((bayerUnscaled (bayerDoublings 3 3) 3 2 : ℕ) : ℚ) / ((3 * 3 : ℕ) : ℚ) = 15 / 9
    rw [show bayerUnscaled (bayerDoublings 3 3) 3 2 = 15 from rfl]
    norm_num
  refine ⟨?_, h, ?_, rfl⟩
  · unfold bayer_matrix
    rw [if_neg h3]
    rfl
  · rw [h]
    norm_num

/-- C2 (amended): `bayer_matrix` performs no validation at all.  For any
size that is not a power of two it silently returns a matrix whose side is
the next power of two (in particular a side different from the requested
size), rather than rejecting the size with a configuration error; the
values are divided by the requested `size²`, so they need not lie in
`[0, 1)` (see the counterexample). -/
theorem C2_no_rejection (s : ℕ) (hs : ¬ isPow2 s) :
    (bayer_matrix s).h ≠ s ∧ isPow2 (bayer_matrix s).h := by
  have h2 : s ≠ 2 := by
    rintro rfl
    exact hs ⟨1, rfl⟩
  unfold bayer_matrix
  rw [if_neg h2]
  refine ⟨fun h => hs ?_, isPow2_two_pow (bayerDoublings s s + 1)⟩
  have h' : 2 ^ (bayerDoublings s s + 1) = s := h
  exact h' ▸ isPow2_two_pow (bayerDoublings s s + 1)

theorem C2_witness :
    ¬ isPow2 3 ∧ (bayer_matrix 3).h ≠ 3 :=
  ⟨not_isPow2_three, (C2_no_rejection 3 not_isPow2_three).1⟩

/-- C5 (counterexample): the claim says an exception during steps 1–8
leaves the stored result exactly as it was before the call.  But the
source stores `self.results = halftoned` *before* emitting the final
`(8, "Processing complete!")` report: a progress callback that raises
there makes `process` propagate the exception while the stored result has
already been replaced (here: changed from `none` to the new run's
channels). -/
theorem C5_counterexample :
    (process cfgBase edge0 raster1 cbComplete ⟨none, false⟩).1 = .error () ∧
    (process cfgBase edge0 raster1 cbComplete ⟨none, false⟩).2.results ≠ none := by
  constructor
  · rfl
  · show some (pipelineChannels cfgBase edge0 raster1) ≠ none
    simp

/-- C5 (amended): if any exception is raised during steps 1–8 (modelled:
any progress report raises), the in-progress indicator is cleared and the
exception propagates; the stored result is never a partial ChannelSet — it
is either exactly the pre-call value or the *complete* result of this run,
and the latter only when the exception came from the final completion
report (emitted after the store). -/
theorem C5_exception_state {E : Type} (cfg : Config) (edge : Raster → ℕ → ℕ → ℚ)
    (raster : Raster) (cb : ℕ → ProgressMsg → Option E) (st : ProcState) (e : E)
    (herr : (process cfg edge raster cb st).1 = .error e) :
    (process cfg edge raster cb st).2.is_processing = false ∧
    ((process cfg edge raster cb st).2.results = st.results ∨
      (process cfg edge raster cb st).2.results =
        some (pipelineChannels cfg edge raster)) ∧
    (cb 8 ProgressMsg.complete = none →
      (process cfg edge raster cb st).2.results = st.results) := by
  rcases process_shape cfg edge raster cb st with ⟨e', hp⟩ | ⟨e', hc, hp⟩ | ⟨hc, hp⟩
  · rw [hp]
    exact ⟨rfl, Or.inl rfl, fun _ => rfl⟩
  · rw [hp]
    exact ⟨rfl, Or.inr rfl, fun hn => absurd (hn ▸ hc) (by simp)⟩
  · rw [hp] at herr
    exact absurd herr (by simp)

theorem C5_witness :
    (process cfgBase edge0 raster1 (fun _ _ => some ()) ⟨none, false⟩).1 =
      Except.error () ∧
    (process cfgBase edge0 raster1 (fun _ _ => some ()) ⟨none, false⟩).2.is_processing =
      false :=
  ⟨rfl, (C5_exception_state cfgBase edge0 raster1 (fun _ _ => some ()) ⟨none, false⟩ () rfl).1⟩

/-- C8: every plane of the ChannelSet returned by a successful `process`
run has exactly the raster's height and width, whatever the halftone
method string, white method string and screen angles in the
configuration. -/
theorem C8_output_dims {E : Type} (cfg : Config) (edge : Raster → ℕ → ℕ → ℚ)
    (raster : Raster) (cb : ℕ → ProgressMsg → Option E) (st : ProcState)
    (cm : Colorant → Plane) (hok : (process cfg edge raster cb st).1 = .ok cm) :
    ∀ name, (cm name).h = raster.h ∧ (cm name).w = raster.w := by
  have hcm : cm = pipelineChannels cfg edge raster := by
    rcases process_shape cfg edge raster cb st with ⟨e', hp⟩ | ⟨e', _, hp⟩ | ⟨_, hp⟩
    · rw [hp] at hok
      exact absurd hok (by simp)
    · rw [hp] at hok
      exact absurd hok (by simp)
    · rw [hp] at hok
      simpa using hok.symm
  subst hcm
  intro name
  unfold pipelineChannels
  constructor
  · rw [halftoneChannel_h, channelsAfterDotGain_h]
  · rw [halftoneChannel_w, channelsAfterDotGain_w]

theorem C8_witness :
    (process cfgBase edge0 raster1 (fun _ _ => (none : Option Unit)) ⟨none, false⟩).1 =
      Except.ok (pipelineChannels cfgBase edge0 raster1) ∧
    ((pipelineChannels cfgBase edge0 raster1) Colorant.cyan).h = raster1.h :=
  ⟨rfl,
    (C8_output_dims cfgBase edge0 raster1 (fun _ _ => (none : Option Unit)) ⟨none, false⟩
      (pipelineChannels cfgBase edge0 raster1) rfl Colorant.cyan).1⟩

/-- C9: a configuration whose method string is not one of `"ordered"`,
`"error_diffusion"`, `"hybrid"` does not make `process` fail: the run
completes (returns `ok` when no progress report raises) and every channel
is halftoned with ordered dithering (the `else` branch). -/
theorem C9_unknown_method_completes (cfg : Config) (edge : Raster → ℕ → ℕ → ℚ)
    (raster : Raster) (st : ProcState)
    (h1 : cfg.method ≠ "ordered") (h2 : cfg.method ≠ "error_diffusion")
    (h3 : cfg.method ≠ "hybrid") :
    (process cfg edge raster (fun _ _ => (none : Option Unit)) st).1 =
      .ok (pipelineChannels cfg edge raster) ∧
    ∀ name, pipelineChannels cfg edge raster name =
      ordered_dither (channelsAfterDotGain cfg edge raster name) 8 45 := by
  refine ⟨rfl, fun name => ?_⟩
  unfold pipelineChannels halftoneChannel
  rw [if_neg h1, if_neg h2, if_neg h3]

theorem C9_witness :
    cfgUnknown.method ≠ "ordered" ∧
    (process cfgUnknown edge0 raster1 (fun _ _ => (none : Option Unit)) ⟨none, false⟩).1 =
      Except.ok (pipelineChannels cfgUnknown edge0 raster1) :=
  ⟨by decide,
    (C9_unknown_method_completes cfgUnknown edge0 raster1 ⟨none, false⟩
      (by decide) (by decide) (by decide)).1⟩

/-- C1 (amended): when no rotation happens (`angle = 0`), every sample of
the `ordered_dither` output is 0 or 255, for every input plane and every
matrix size; with a non-zero angle the rotation's bilinear interpolation
can produce intermediate values (see the counterexample). -/
theorem C1_binary_when_angle_zero (p : Plane) (N i j : ℕ) :
    (ordered_dither p N 0).data i j = 0 ∨ (ordered_dither p N 0).data i j = 255 := by
  rw [ordered_dither_angle_zero]
  dsimp only
  have h : (threshold01 p N).data i j = 1 ∨ (threshold01 p N).data i j = 0 := by
    unfold threshold01
    dsimp only
    split_ifs <;> simp
  rcases h with h | h <;> rw [h] <;> norm_num

/-- C10: the fallback for an unrecognized method string calls
`ordered_dither` with its own defaults — matrix size 8 and screen angle
45° — ignoring both `config.matrix_size` and the channel's configured
angle; and for the configuration `cfgAdaptive` (matrix size 2, angle 0)
this fallback output genuinely differs from ordered dithering with the
configured parameters. -/
theorem C10_fallback_default_parameters :
    (∀ (cfg : Config) (name : Colorant) (p : Plane),
      cfg.method ≠ "ordered" → cfg.method ≠ "error_diffusion" → cfg.method ≠ "hybrid" →
      halftoneChannel cfg name p = ordered_dither p 8 45) ∧
    halftoneChannel cfgAdaptive Colorant.cyan plane12 ≠
      ordered_dither plane12 cfgAdaptive.matrix_size (cfgAdaptive.angles Colorant.cyan) := by
  have hfallback : ∀ (cfg : Config) (name : Colorant) (p : Plane),
      cfg.method ≠ "ordered" → cfg.method ≠ "error_diffusion" → cfg.method ≠ "hybrid" →
      halftoneChannel cfg name p = ordered_dither p 8 45 := by
    intro cfg name p h1 h2 h3
    unfold halftoneChannel
    rw [if_neg h1, if_neg h2, if_neg h3]
  -- the fallback's first output pixel is 0: the 45° rotation samples the
  -- coordinate (−√2/4, 1/2 − √2/4), whose row is left of the extent
  have hod : (ordered_dither plane12 8 45).data 0 0 = 0 := by
    have h45 : (45 : ℚ) ≠ 0 := by norm_num
    unfold ordered_dither
    rw [if_neg h45]
    show ((⌊(255 : ℝ) * rotVal 45 (threshold01 plane12 8) 0 0⌋ : ℤ) : ℚ) = 0
    have hrot : rotVal 45 (threshold01 plane12 8) 0 0 = 0 := by
      unfold rotVal
      apply bilinearAt_oob_left
      rw [theta45, Real.cos_pi_div_four, Real.sin_pi_div_four]
      have hh : ((threshold01 plane12 8).h : ℝ) = 1 := by norm_num [threshold01, plane12]
      have hw : ((threshold01 plane12 8).w : ℝ) = 2 := by norm_num [threshold01, plane12]
      rw [hh, hw]
      obtain ⟨hs0, -, -, -⟩ := sqrt2_facts
      push_cast
      nlinarith
    rw [hrot]
    norm_num
  -- ordered dithering with the configured parameters (size 2, angle 0)
  -- keeps that pixel at 255
  have hcfg : (ordered_dither plane12 2 0).data 0 0 = 255 := by
    rw [ordered_dither_angle_zero]
    show ((⌊(255 : ℚ) * (threshold01 plane12 2).data 0 0⌋ : ℤ) : ℚ) = 255
    have h1 : (threshold01 plane12 2).data 0 0 = 1 := by
      unfold threshold01 bayer_matrix
      norm_num [plane12, bayer2]
    rw [h1]
    norm_num
  refine ⟨hfallback, ?_⟩
  rw [hfallback cfgAdaptive Colorant.cyan plane12 (by decide) (by decide) (by decide)]
  show ordered_dither plane12 8 45 ≠ ordered_dither plane12 2 0
  intro heq
  have h2 : (ordered_dither plane12 8 45).data 0 0 =
      (ordered_dither plane12 2 0).data 0 0 := by rw [heq]
  rw [hod, hcfg] at h2
  norm_num at h2

theorem C10_witness :
    cfgAdaptive.method ≠ "ordered" ∧
    halftoneChannel cfgAdaptive Colorant.magenta plane12 = ordered_dither plane12 8 45 :=
  ⟨by decide,
    C10_fallback_default_parameters.1 cfgAdaptive Colorant.magenta plane12
      (by decide) (by decide) (by decide)⟩

/-- C1 (counterexample): with the default screen angle 45° the rotation
breaks the binary contract.  On the 3×3 plane with a single bright pixel,
the rotated output pixel `(0, 1)` samples coordinate
`(1 − √2/2, 1 + √2/2)`; bilinear interpolation of the binary thresholded
plane there gives `(√2/2)² = 1/2`, so `(result * 255).astype(uint8)` is
`⌊127.5⌋ = 127` — neither 0 nor 255. -/
theorem C1_counterexample :
    (ordered_dither plane3x3 8 45).data 0 1 = 127 ∧
    (ordered_dither plane3x3 8 45).data 0 1 ≠ 0 ∧
    (ordered_dither plane3x3 8 45).data 0 1 ≠ 255 := by
  obtain ⟨hs0, hs2, hs1, hsq⟩ := sqrt2_facts
  -- the thresholded plane at the four sampled neighbours
  have hb : ∀ a b : ℕ, (bayer_matrix 8).data a b = (bayerUnscaled 2 a b : ℚ) / 64 := by
    intro a b
    unfold bayer_matrix
    rw [if_neg (by norm_num : (8 : ℕ) ≠ 2)]
    show ((bayerUnscaled (bayerDoublings 8 8) a b : ℕ) : ℚ) / ((8 * 8 : ℕ) : ℚ) = _
    norm_num [show bayerDoublings 8 8 = 2 from rfl]
  set q := threshold01 plane3x3 8 with hqdef
  have hq : ∀ a b : ℕ, q.data a b =
      if plane3x3.data a b / 255 > (bayerUnscaled 2 (a % 8) (b % 8) : ℚ) / 64
      then (1 : ℚ) else 0 := by
    intro a b
    show (threshold01 plane3x3 8).data a b = _
    unfold threshold01
    dsimp only
    rw [show (bayer_matrix 8).h = 8 from rfl, show (bayer_matrix 8).w = 8 from rfl, hb]
  have hq01 : q.data 0 1 = 0 := by
    rw [hq]
    norm_num [plane3x3, show bayerUnscaled 2 0 1 = 2 from rfl]
  have hq02 : q.data 0 2 = 1 := by
    rw [hq]
    norm_num [plane3x3, show bayerUnscaled 2 0 2 = 4 from rfl]
  have hq11 : q.data 1 1 = 0 := by
    rw [hq]
    norm_num [plane3x3, show bayerUnscaled 2 1 1 = 1 from rfl]
  have hq12 : q.data 1 2 = 0 := by
    rw [hq]
    norm_num [plane3x3, show bayerUnscaled 2 1 2 = 7 from rfl]
  -- the rotated sample value
  have harg : rotVal 45 q 0 1 =
      bilinearAt q (1 - Real.sqrt 2 / 2) (1 + Real.sqrt 2 / 2) := by
    simp only [rotVal]
    rw [theta45, Real.cos_pi_div_four, Real.sin_pi_div_four]
    rw [show q.h = 3 from rfl, show q.w = 3 from rfl]
    congr 1 <;> push_cast <;> ring
  have hfy : ⌊(1 - Real.sqrt 2 / 2 : ℝ)⌋ = 0 := by
    rw [Int.floor_eq_zero_iff]
    constructor
    · nlinarith
    · nlinarith
  have hfx : ⌊(1 + Real.sqrt 2 / 2 : ℝ)⌋ = 1 := by
    rw [Int.floor_eq_iff]
    push_cast
    constructor
    · nlinarith
    · nlinarith
  have hp01 : pixVal q 0 1 = q.data 0 1 :=
    pixVal_in q 0 1 (by norm_num) (by rw [show q.h = 3 from rfl]; norm_num)
      (by norm_num) (by rw [show q.w = 3 from rfl]; norm_num)
  have hp02 : pixVal q 0 2 = q.data 0 2 :=
    pixVal_in q 0 2 (by norm_num) (by rw [show q.h = 3 from rfl]; norm_num)
      (by norm_num) (by rw [show q.w = 3 from rfl]; norm_num)
  have hp11 : pixVal q 1 1 = q.data 1 1 :=
    pixVal_in q 1 1 (by norm_num) (by rw [show q.h = 3 from rfl]; norm_num)
      (by norm_num) (by rw [show q.w = 3 from rfl]; norm_num)
  have hp12 : pixVal q 1 2 = q.data 1 2 :=
    pixVal_in q 1 2 (by norm_num) (by rw [show q.h = 3 from rfl]; norm_num)
      (by norm_num) (by rw [show q.w = 3 from rfl]; norm_num)
  have hbil : bilinearAt q (1 - Real.sqrt 2 / 2) (1 + Real.sqrt 2 / 2) = 1 / 2 := by
    unfold bilinearAt
    rw [if_pos ?side]
    case side =>
      refine ⟨by nlinarith, ?_, by nlinarith, ?_⟩
      · rw [show q.h = 3 from rfl]
        push_cast
        nlinarith
      · rw [show q.w = 3 from rfl]
        push_cast
        nlinarith
    dsimp only
    rw [hfy, hfx]
    norm_num
    rw [hp01, hp02, hp11, hp12, hq01, hq02, hq11, hq12]
    push_cast
    linear_combination hsq / 4
  have hmain : (ordered_dither plane3x3 8 45).data 0 1 = 127 := by
    have h45 : (45 : ℚ) ≠ 0 := by norm_num
    unfold ordered_dither
    rw [if_neg h45]
    show ((⌊(255 : ℝ) * rotVal 45 (threshold01 plane3x3 8) 0 1⌋ : ℤ) : ℚ) = 127
    rw [← hqdef, harg, hbil]
    norm_num
  exact ⟨hmain, by rw [hmain]; norm_num, by rw [hmain]; norm_num⟩

/-- C4 (amended): `hybrid_halftone` gives every highlight/shadow pixel the
full-plane Floyd–Steinberg value; but a midtone pixel does *not* get the
full-plane ordered dither at angle 0 — it gets the value of
`ordered_dither` (matrix size 8, default angle 45°) applied to the M×1
column of extracted midtone samples, at that pixel's row-major extraction
rank.  The highlight and shadow masks are disjoint whenever the highlight
threshold does not exceed the shadow threshold. -/
theorem C4_hybrid_decomposition (p : Plane) (ht sh : ℚ) (i j : ℕ) :
    ((p.data i j / 255 < ht ∨ sh < p.data i j / 255) →
      (hybrid_halftone p ht sh).data i j = (floyd_steinberg p).data i j) ∧
    (¬ (p.data i j / 255 < ht ∨ sh < p.data i j / 255) →
      (hybrid_halftone p ht sh).data i j =
        (ordered_dither (midtoneColumn p ht sh) 8 45).data
          ((midtonePixels p ht sh).indexOf (i, j)) 0) ∧
    (ht ≤ sh → ¬ (p.data i j / 255 < ht ∧ sh < p.data i j / 255)) := by
  refine ⟨fun h => ?_, fun h => ?_, ?_⟩
  · unfold hybrid_halftone
    dsimp only
    rw [if_pos h]
  · unfold hybrid_halftone
    dsimp only
    rw [if_neg h]
  · rintro hts ⟨h1, h2⟩
    linarith

theorem C4_witness :
    (plane52.data 0 0 / 255 < 1 / 5 ∨ (4 : ℚ) / 5 < plane52.data 0 0 / 255) ∧
    (hybrid_halftone plane52 (1 / 5) (4 / 5)).data 0 0 =
      (floyd_steinberg plane52).data 0 0 := by
  have h : plane52.data 0 0 / 255 < 1 / 5 ∨ (4 : ℚ) / 5 < plane52.data 0 0 / 255 :=
    Or.inl (by norm_num [plane52])
  exact ⟨h, (C4_hybrid_decomposition plane52 (1 / 5) (4 / 5) 0 0).1 h⟩

/-- C4 (counterexample): on `plane52` the claimed composition (full-plane
ordered dither, matrix 8, angle 0, restricted to midtones) gives 0 at the
midtone pixel `(4, 1)` — its Bayer threshold `b8[4][1] = 34/64` exceeds
`128/255` — while the code's `hybrid_halftone` gives 255 there: the pixel
is extracted into a 1×1 column whose Bayer threshold is `b8[0][0] = 0`. -/
theorem C4_counterexample :
    (hybrid_halftone plane52 (1 / 5) (4 / 5)).data 4 1 = 255 ∧
    (hybridSpecComposition plane52 (1 / 5) (4 / 5)).data 4 1 = 0 := by
  have hmid : ¬ (plane52.data 4 1 / 255 < 1 / 5 ∨ (4 : ℚ) / 5 < plane52.data 4 1 / 255) := by
    norm_num [plane52]
  have hrm : rowMajor 5 2 =
      [(0,0),(0,1),(1,0),(1,1),(2,0),(2,1),(3,0),(3,1),(4,0),(4,1)] := rfl
  have hmp : midtonePixels plane52 (1 / 5) (4 / 5) = [(4, 1)] := by
    unfold midtonePixels
    rw [show plane52.h = 5 from rfl, show plane52.w = 2 from rfl, hrm]
    norm_num [List.filter, isMidtoneB, plane52]
  have hcol_h : (midtoneColumn plane52 (1 / 5) (4 / 5)).h = 1 := by
    unfold midtoneColumn
    rw [hmp]
    rfl
  have hcol_data : (midtoneColumn plane52 (1 / 5) (4 / 5)).data 0 0 = 128 := by
    unfold midtoneColumn
    dsimp only
    rw [hmp]
    norm_num [plane52]
  -- the 1×1 midtone column dithers to 255 (threshold b8[0][0] = 0,
  -- rotation of a 1×1 plane is the identity)
  have ham : (ordered_dither (midtoneColumn plane52 (1 / 5) (4 / 5)) 8 45).data 0 0 = 255 := by
    have h45 : (45 : ℚ) ≠ 0 := by norm_num
    unfold ordered_dither
    rw [if_neg h45]
    dsimp only
    have htc : (threshold01 (midtoneColumn plane52 (1 / 5) (4 / 5)) 8).data 0 0 = 1 := by
      unfold threshold01
      dsimp only
      rw [show (bayer_matrix 8).h = 8 from rfl, show (bayer_matrix 8).w = 8 from rfl,
        bayer8_data, hcol_data]
      norm_num [show bayerUnscaled 2 0 0 = 0 from rfl]
    rw [rotVal_one_one 45 _ (by rw [show (threshold01 (midtoneColumn plane52 (1 / 5) (4 / 5)) 8).h = (midtoneColumn plane52 (1 / 5) (4 / 5)).h from rfl, hcol_h]) rfl, htc]
    norm_num
  have hyb : (hybrid_halftone plane52 (1 / 5) (4 / 5)).data 4 1 = 255 := by
    unfold hybrid_halftone
    dsimp only
    rw [if_neg hmid, hmp]
    rw [show ([((4 : ℕ), (1 : ℕ))].indexOf ((4 : ℕ), (1 : ℕ))) = 0 from rfl]
    exact ham
  have hspec : (hybridSpecComposition plane52 (1 / 5) (4 / 5)).data 4 1 = 0 := by
    unfold hybridSpecComposition
    dsimp only
    rw [if_neg hmid, ordered_dither_angle_zero]
    dsimp only
    have ht : (threshold01 plane52 8).data 4 1 = 0 := by
      unfold threshold01
      dsimp only
      rw [show (bayer_matrix 8).h = 8 from rfl, show (bayer_matrix 8).w = 8 from rfl,
        bayer8_data]
      norm_num [plane52, show bayerUnscaled 2 4 1 = 34 from rfl]
    rw [ht]
    norm_num
  exact ⟨hyb, hspec⟩

end DTF
